import Mathlib

/-!
Verification of the resource data model of the `python-packaging` crate
(`src/python-packaging/src/resource.rs`) and of the embedding-context
finalization of `src/pyoxidizer/src/py_packaging/binary.rs`.

The Rust code is shallowly embedded: byte buffers are `List Nat`, the
filesystem is an explicit environment `FS : String → Option (List Nat)`
passed to every operation that performs I/O in Rust, and fallible Rust
functions (`Result<T>`, as well as indexing panics) return `Except Err T`.
-/

namespace PyOx

/-- Error taxonomy of the embedded operations. `IoError p` stands for a Rust
`std::io` failure reading path `p`; `BytecodeTooShort` for the
"bytecode file is too short" `anyhow!` error; `EmptyVariantSet` for the
index-out-of-bounds panic of `default_variant` on an empty variant set. -/
inductive Err where
  | IoError (path : String)
  | BytecodeTooShort
  | EmptyVariantSet
  deriving DecidableEq, Repr

/-- The filesystem environment: maps a path to the byte content of the file
there, or `none` when the path is unreadable. -/
def FS : Type := String → Option (List Nat)

/-- Rust `enum DataLocation \x7b Path(PathBuf), Memory(Vec<u8>) \x7d`:
an abstract location for binary data, backed by memory or by a path. -/
inductive DataLocation where
  | Path (p : String)
  | Memory (data : List Nat)
  deriving DecidableEq, Repr

namespace DataLocation

/-- Rust `DataLocation::resolve`: read the file for the `Path` variant
(failing when the path is unreadable), clone the buffer for `Memory`. -/
def resolve (fs : FS) : DataLocation → Except Err (List Nat)
  | .Path p =>
    match fs p with
    | some data => .ok data
    | none => .error (.IoError p)
  | .Memory data => .ok data

/-- Rust `DataLocation::to_memory`: `Ok(DataLocation::Memory(self.resolve()?))`. -/
def to_memory (fs : FS) (loc : DataLocation) : Except Err DataLocation :=
  (loc.resolve fs).map DataLocation.Memory

/-- Whether the location is the `Memory` variant. -/
def is_memory : DataLocation → Bool
  | .Memory _ => true
  | .Path _ => false

end DataLocation

/-- Rust `enum BytecodeOptimizationLevel \x7b Zero, One, Two \x7d`. -/
inductive BytecodeOptimizationLevel where
  | Zero
  | One
  | Two
  deriving DecidableEq, Repr

/-- Rust `BytecodeOptimizationLevel::to_extra_tag`. -/
def BytecodeOptimizationLevel.to_extra_tag : BytecodeOptimizationLevel → String
  | .Zero => ""
  | .One => ".opt-1"
  | .Two => ".opt-2"

/-- Splits a list of characters on `.`, accumulating the current segment in
reverse. Embeds Rust `str::split('.')` (same semantics as
`String.splitOn "."`, but by structural recursion so that terms reduce). -/
def splitDotsAux : List Char → List Char → List String
  | [], acc => [String.mk acc.reverse]
  | c :: rest, acc =>
    if c = '.' then String.mk acc.reverse :: splitDotsAux rest []
    else splitDotsAux rest (c :: acc)

/-- The dotted segments of a name: Rust `name.split('.')`. -/
def split_dots (s : String) : List String :=
  splitDotsAux s.data []

/-- Joins strings with a separator: Rust `Vec::join`. -/
def joinSep (sep : String) : List String → String
  | [] => ""
  | [x] => x
  | x :: y :: rest => x ++ sep ++ joinSep sep (y :: rest)

/-- Modelled from the spec: `packages_from_module_name` lives in
`module_util.rs`, which is not part of the provided sources. Per §3 of the
spec, membership matching "must also match any resource whose dotted name is
prefixed by a requested package name", so this returns every proper dotted
prefix of a module name: for `"foo.bar.baz"` the packages `"foo"` and
`"foo.bar"`. -/
def packages_from_module_name (name : String) : List String :=
  let parts := split_dots name
  (List.range (parts.length - 1)).map
    (fun i => joinSep "." (parts.take (i + 1)))

/-- Modelled from the spec: `resolve_path_for_module` lives in
`module_util.rs`, which is not part of the provided sources. Per §3 of the
spec it reproduces the runtime import conventions: dotted name segments
become directory segments; a package's own file is named distinctly from a
leaf module's file (the `__init__` convention); bytecode files live under a
cache directory and their file name incorporates the bytecode tag before
the trailing extension. The result is the list of path components. -/
def resolve_path_for_module (pfx : String) (name : String) (is_package : Bool)
    (bytecode_tag : Option String) : List String :=
  let parts := split_dots name
  let dirs := parts.dropLast
  let dirs := if is_package then dirs ++ [parts.getLastD ""] else dirs
  let dirs := if bytecode_tag.isSome then dirs ++ ["__pycache__"] else dirs
  let basename := if is_package then "__init__" else parts.getLastD ""
  let filename :=
    match bytecode_tag with
    | some tag => basename ++ "." ++ tag ++ ".pyc"
    | none => basename ++ ".py"
  pfx :: (dirs ++ [filename])

/-- Rust `struct PythonModuleSource`: a Python module defined via source code. -/
structure PythonModuleSource where
  name : String
  source : DataLocation
  is_package : Bool
  cache_tag : String
  is_stdlib : Bool
  is_test : Bool
  deriving DecidableEq, Repr

namespace PythonModuleSource

/-- Rust `PythonModuleSource::to_memory`. -/
def to_memory (fs : FS) (m : PythonModuleSource) : Except Err PythonModuleSource := do
  let source ← m.source.to_memory fs
  return { m with source := source }

/-- Rust `PythonModuleSource::resolve_path`. -/
def resolve_path (m : PythonModuleSource) (pfx : String) : List String :=
  resolve_path_for_module pfx m.name m.is_package none

end PythonModuleSource

/-- Rust `struct PythonModuleBytecodeFromSource`: a request to generate
bytecode from Python module source code. -/
structure PythonModuleBytecodeFromSource where
  name : String
  source : DataLocation
  optimize_level : BytecodeOptimizationLevel
  is_package : Bool
  cache_tag : String
  is_stdlib : Bool
  is_test : Bool
  deriving DecidableEq, Repr

namespace PythonModuleBytecodeFromSource

/-- Rust `PythonModuleBytecodeFromSource::to_memory`. -/
def to_memory (fs : FS) (m : PythonModuleBytecodeFromSource) :
    Except Err PythonModuleBytecodeFromSource := do
  let source ← m.source.to_memory fs
  return { m with source := source }

/-- Rust `PythonModuleBytecodeFromSource::resolve_path`: builds the bytecode
tag from the cache tag and the optimization level, then delegates to
`resolve_path_for_module`. -/
def resolve_path (m : PythonModuleBytecodeFromSource) (pfx : String) : List String :=
  let bytecode_tag :=
    match m.optimize_level with
    | .Zero => m.cache_tag
    | .One => m.cache_tag ++ ".opt-1"
    | .Two => m.cache_tag ++ ".opt-2"
  resolve_path_for_module pfx m.name m.is_package (some bytecode_tag)

end PythonModuleBytecodeFromSource

/-- Rust `struct PythonModuleBytecode`: compiled Python module bytecode.
The `bytecode` field is private in Rust; it is an ordinary field here. -/
structure PythonModuleBytecode where
  name : String
  bytecode : DataLocation
  optimize_level : BytecodeOptimizationLevel
  is_package : Bool
  cache_tag : String
  is_stdlib : Bool
  is_test : Bool
  deriving DecidableEq, Repr

namespace PythonModuleBytecode

/-- Rust `PythonModuleBytecode::new`: stores the given bytes in memory and
clears the stdlib/test flags. -/
def new (name : String) (optimize_level : BytecodeOptimizationLevel)
    (is_package : Bool) (cache_tag : String) (data : List Nat) :
    PythonModuleBytecode :=
  { name := name
    bytecode := DataLocation.Memory data
    optimize_level := optimize_level
    is_package := is_package
    cache_tag := cache_tag
    is_stdlib := false
    is_test := false }

/-- Rust `PythonModuleBytecode::resolve_bytecode`: a memory-backed instance
returns its bytes unchanged; a path-backed instance reads the file and strips
a fixed 16-byte header, failing with `BytecodeTooShort` when fewer than 16
bytes are present. -/
def resolve_bytecode (fs : FS) (m : PythonModuleBytecode) : Except Err (List Nat) :=
  match m.bytecode with
  | .Memory data => .ok data
  | .Path path =>
    match fs path with
    | none => .error (.IoError path)
    | some data =>
      if data.length ≥ 16 then
        .ok (data.drop 16)
      else
        .error .BytecodeTooShort

/-- Rust `PythonModuleBytecode::set_bytecode`: replaces the bytecode with a
memory-backed buffer. -/
def set_bytecode (m : PythonModuleBytecode) (data : List Nat) : PythonModuleBytecode :=
  { m with bytecode := DataLocation.Memory data }

/-- Rust `PythonModuleBytecode::to_memory`: re-backs the bytecode with the
resolved bytes. -/
def to_memory (fs : FS) (m : PythonModuleBytecode) : Except Err PythonModuleBytecode := do
  let data ← m.resolve_bytecode fs
  return { m with bytecode := DataLocation.Memory data }

/-- Rust `PythonModuleBytecode::resolve_path`: builds the bytecode tag from
the cache tag and the optimization level, then delegates to
`resolve_path_for_module`. -/
def resolve_path (m : PythonModuleBytecode) (pfx : String) : List String :=
  let bytecode_tag :=
    match m.optimize_level with
    | .Zero => m.cache_tag
    | .One => m.cache_tag ++ ".opt-1"
    | .Two => m.cache_tag ++ ".opt-2"
  resolve_path_for_module pfx m.name m.is_package (some bytecode_tag)

end PythonModuleBytecode

/-- Rust `struct PythonPackageResource`: package resource data. -/
structure PythonPackageResource where
  leaf_package : String
  relative_name : String
  data : DataLocation
  is_stdlib : Bool
  is_test : Bool
  deriving DecidableEq, Repr

namespace PythonPackageResource

/-- Rust `PythonPackageResource::to_memory`. -/
def to_memory (fs : FS) (r : PythonPackageResource) : Except Err PythonPackageResource := do
  let data ← r.data.to_memory fs
  return { r with data := data }

/-- Rust `PythonPackageResource::resolve_path`: the dotted leaf package
becomes directory segments, then the relative name is appended. -/
def resolve_path (r : PythonPackageResource) (pfx : String) : List String :=
  pfx :: (split_dots r.leaf_package ++ [r.relative_name])

end PythonPackageResource

/-- Rust `enum PythonPackageDistributionResourceFlavor`. -/
inductive PythonPackageDistributionResourceFlavor where
  | DistInfo
  | EggInfo
  deriving DecidableEq, Repr

/-- Rust `struct PythonPackageDistributionResource`: a file defining Python
package metadata. -/
structure PythonPackageDistributionResource where
  location : PythonPackageDistributionResourceFlavor
  package : String
  version : String
  name : String
  data : DataLocation
  deriving DecidableEq, Repr

namespace PythonPackageDistributionResource

/-- Rust `PythonPackageDistributionResource::to_memory`. -/
def to_memory (fs : FS) (r : PythonPackageDistributionResource) :
    Except Err PythonPackageDistributionResource := do
  let data ← r.data.to_memory fs
  return { r with data := data }

/-- Rust `PythonPackageDistributionResource::resolve_path`: the metadata
directory is `<package>-<version>.dist-info` or `<package>-<version>.egg-info`
depending on the flavor, and the resource name is the file name inside it. -/
def resolve_path (r : PythonPackageDistributionResource) (pfx : String) : List String :=
  let p :=
    match r.location with
    | .DistInfo => r.package ++ "-" ++ r.version ++ ".dist-info"
    | .EggInfo => r.package ++ "-" ++ r.version ++ ".egg-info"
  [pfx, p, r.name]

end PythonPackageDistributionResource

/-- Rust `struct LibraryDependency`: a dependency on a library. -/
structure LibraryDependency where
  name : String
  static_library : Option DataLocation
  dynamic_library : Option DataLocation
  framework : Bool
  system : Bool
  deriving DecidableEq, Repr

namespace LibraryDependency

/-- Rust `LibraryDependency::to_memory`: promotes the optional static and
dynamic library blobs. -/
def to_memory (fs : FS) (l : LibraryDependency) : Except Err LibraryDependency := do
  let static_library ←
    match l.static_library with
    | some data => do
      let d ← data.to_memory fs
      pure (some d)
    | none => pure none
  let dynamic_library ←
    match l.dynamic_library with
    | some data => do
      let d ← data.to_memory fs
      pure (some d)
    | none => pure none
  return { l with static_library := static_library, dynamic_library := dynamic_library }

end LibraryDependency

/-- Rust `struct PythonExtensionModule`: a Python extension module. -/
structure PythonExtensionModule where
  name : String
  init_fn : Option String
  extension_file_suffix : String
  shared_library : Option DataLocation
  object_file_data : List DataLocation
  is_package : Bool
  link_libraries : List LibraryDependency
  is_stdlib : Bool
  builtin_default : Bool
  required : Bool
  variant : Option String
  licenses : Option (List String)
  license_texts : Option (List DataLocation)
  license_public_domain : Option Bool
  deriving DecidableEq, Repr

namespace PythonExtensionModule

/-- Rust `PythonExtensionModule::to_memory`: promotes the shared library,
the link-library blobs and the license texts; `object_file_data` is cloned
as-is (`object_file_data: self.object_file_data.clone()`), not promoted. -/
def to_memory (fs : FS) (em : PythonExtensionModule) : Except Err PythonExtensionModule := do
  let shared_library ←
    match em.shared_library with
    | some data => do
      let d ← data.to_memory fs
      pure (some d)
    | none => pure none
  let link_libraries ← em.link_libraries.mapM (fun l => l.to_memory fs)
  let license_texts ←
    match em.license_texts with
    | some texts => do
      let ts ← texts.mapM (fun t => t.to_memory fs)
      pure (some ts)
    | none => pure none
  return { em with
    shared_library := shared_library
    object_file_data := em.object_file_data
    link_libraries := link_libraries
    license_texts := license_texts }

/-- Rust `PythonExtensionModule::file_name`: last dotted segment plus the
platform file suffix. -/
def file_name (em : PythonExtensionModule) : String :=
  (split_dots em.name).getLastD em.name ++ em.extension_file_suffix

/-- Rust `PythonExtensionModule::package_parts`: the dotted segments before
the last one. -/
def package_parts (em : PythonExtensionModule) : List String :=
  (split_dots em.name).dropLast

/-- Rust `PythonExtensionModule::resolve_path`. -/
def resolve_path (em : PythonExtensionModule) (pfx : String) : List String :=
  pfx :: (em.package_parts ++ [em.file_name])

end PythonExtensionModule

/-- Rust `struct PythonExtensionModuleVariants`: an ordered collection of
variants for a given extension module. -/
structure PythonExtensionModuleVariants where
  extensions : List PythonExtensionModule
  deriving Repr

namespace PythonExtensionModuleVariants

/-- Rust `Default::default()` for `PythonExtensionModuleVariants`: the empty
set of variants. -/
def empty : PythonExtensionModuleVariants := ⟨[]⟩

/-- Rust `PythonExtensionModuleVariants::push`: appends. -/
def push (s : PythonExtensionModuleVariants) (em : PythonExtensionModule) :
    PythonExtensionModuleVariants :=
  ⟨s.extensions ++ [em]⟩

/-- Rust `PythonExtensionModuleVariants::is_empty`. -/
def is_empty (s : PythonExtensionModuleVariants) : Bool :=
  s.extensions.isEmpty

/-- Rust `PythonExtensionModuleVariants::default_variant`:
`&self.extensions[0]`. The Rust indexing panic on an empty vector is
embedded as the `EmptyVariantSet` failure. -/
def default_variant (s : PythonExtensionModuleVariants) :
    Except Err PythonExtensionModule :=
  match s.extensions with
  | [] => .error .EmptyVariantSet
  | em :: _ => .ok em

/-- Rust `PythonExtensionModuleVariants::choose_variant`: the default / first
variant is chosen unless the preference mapping contains a key with the
extension name and some variant in the set carries the requested variant
value, in which case the first such variant (in insertion order) wins. The
`HashMap` of preferences is embedded as a lookup function. -/
def choose_variant (s : PythonExtensionModuleVariants)
    (variants : String → Option String) : Except Err PythonExtensionModule :=
  match s.default_variant with
  | .error e => .error e
  | .ok chosen =>
    match variants chosen.name with
    | none => .ok chosen
    | some preferred =>
      match s.extensions.find? (fun em => em.variant == some preferred) with
      | some em => .ok em
      | none => .ok chosen

end PythonExtensionModuleVariants

/-- Rust `struct PythonEggFile`: a Python .egg file. -/
structure PythonEggFile where
  data : DataLocation
  deriving DecidableEq, Repr

/-- Rust `PythonEggFile::to_memory`. -/
def PythonEggFile.to_memory (fs : FS) (e : PythonEggFile) : Except Err PythonEggFile := do
  let data ← e.data.to_memory fs
  return { data := data }

/-- Rust `struct PythonPathExtension`: a .pth file. -/
structure PythonPathExtension where
  data : DataLocation
  deriving DecidableEq, Repr

/-- Rust `PythonPathExtension::to_memory`. -/
def PythonPathExtension.to_memory (fs : FS) (e : PythonPathExtension) :
    Except Err PythonPathExtension := do
  let data ← e.data.to_memory fs
  return { data := data }

/-- Rust `enum PythonResource`: the closed sum of all resource kinds. -/
inductive PythonResource where
  | ModuleSource (m : PythonModuleSource)
  | ModuleBytecodeRequest (m : PythonModuleBytecodeFromSource)
  | ModuleBytecode (m : PythonModuleBytecode)
  | Resource (r : PythonPackageResource)
  | DistributionResource (r : PythonPackageDistributionResource)
  | ExtensionModuleDynamicLibrary (em : PythonExtensionModule)
  | ExtensionModuleStaticallyLinked (em : PythonExtensionModule)
  | EggFile (e : PythonEggFile)
  | PathExtension (e : PythonPathExtension)
  deriving DecidableEq, Repr

namespace PythonResource

/-- Rust `PythonResource::full_name`. -/
def full_name : PythonResource → String
  | .ModuleSource m => m.name
  | .ModuleBytecode m => m.name
  | .ModuleBytecodeRequest m => m.name
  | .Resource r => r.leaf_package ++ "." ++ r.relative_name
  | .DistributionResource r => r.package ++ ":" ++ r.name
  | .ExtensionModuleDynamicLibrary em => em.name
  | .ExtensionModuleStaticallyLinked em => em.name
  | .EggFile _ => ""
  | .PathExtension _ => ""

/-- Rust `PythonResource::is_in_packages`: egg and path-extension resources
return `false` immediately; otherwise some requested package must equal the
resource's name or be one of its dotted-prefix packages. -/
def is_in_packages (r : PythonResource) (packages : List String) : Bool :=
  let name? : Option String :=
    match r with
    | .ModuleSource m => some m.name
    | .ModuleBytecode m => some m.name
    | .ModuleBytecodeRequest m => some m.name
    | .Resource r => some r.leaf_package
    | .DistributionResource r => some r.package
    | .ExtensionModuleDynamicLibrary em => some em.name
    | .ExtensionModuleStaticallyLinked em => some em.name
    | .EggFile _ => none
    | .PathExtension _ => none
  match name? with
  | none => false
  | some name =>
    packages.any (fun package =>
      name == package || (packages_from_module_name name).contains package)

/-- Rust `PythonResource::to_memory`: dispatches to the per-kind promotion. -/
def to_memory (fs : FS) : PythonResource → Except Err PythonResource
  | .ModuleSource m => (m.to_memory fs).map .ModuleSource
  | .ModuleBytecode m => (m.to_memory fs).map .ModuleBytecode
  | .ModuleBytecodeRequest m => (m.to_memory fs).map .ModuleBytecodeRequest
  | .Resource r => (r.to_memory fs).map .Resource
  | .DistributionResource r => (r.to_memory fs).map .DistributionResource
  | .ExtensionModuleDynamicLibrary em => (em.to_memory fs).map .ExtensionModuleDynamicLibrary
  | .ExtensionModuleStaticallyLinked em =>
    (em.to_memory fs).map .ExtensionModuleStaticallyLinked
  | .EggFile e => (e.to_memory fs).map .EggFile
  | .PathExtension e => (e.to_memory fs).map .PathExtension

end PythonResource

/-- Rust `enum LibpythonLinkMode` (binary.rs). -/
inductive LibpythonLinkMode where
  | Static
  | Dynamic
  deriving DecidableEq, Repr

/-- Modelled from the spec: `EmbeddedPythonConfig` (config.rs is not among
the provided sources) is the configuration for the embedded interpreter,
consumed opaquely by the finalization step; it is carried as abstract data. -/
structure EmbeddedPythonConfig where
  data : String
  deriving DecidableEq, Repr

/-- Rust `struct PythonLinkingInfo` (binary.rs): how to link a binary
against Python. -/
structure PythonLinkingInfo where
  libpythonxy_filename : String
  libpythonxy_data : List Nat
  libpython_filename : Option String
  libpyembeddedconfig_filename : Option String
  libpyembeddedconfig_data : Option (List Nat)
  cargo_metadata : List String
  deriving DecidableEq, Repr

/-- Rust `struct EmbeddedPythonContext` (binary.rs): context necessary to
embed Python in a binary. `extra_files: FileManifest` belongs to an external
crate and plays no role in `write_files`; it is carried as abstract data. -/
structure EmbeddedPythonContext where
  config : EmbeddedPythonConfig
  linking_info : PythonLinkingInfo
  module_names : List Nat
  resources : List Nat
  extra_files : List String
  host_triple : String
  target_triple : String
  deriving DecidableEq, Repr

/-- Rust `PathBuf::join` on the destination directory, embedded on strings. -/
def path_join (dir name : String) : String :=
  dir ++ "/" ++ name

/-- Content written to a file by `write_files`: raw bytes
(`fh.write_all(&…)` of a `Vec<u8>`) or text (the generated configuration
and the joined cargo metadata lines). -/
inductive FileData where
  | bytes (l : List Nat)
  | text (s : String)
  deriving DecidableEq, Repr

/-- Rust `struct EmbeddedPythonPaths` (binary.rs). -/
structure EmbeddedPythonPaths where
  module_names : String
  embedded_resources : String
  libpython : String
  libpyembeddedconfig : Option String
  config_rs : String
  cargo_metadata : String
  deriving DecidableEq, Repr

/-- Rust `EmbeddedPythonContext::write_files` (binary.rs): materializes the
context under `dest_dir` and returns the paths. The filesystem writes are
embedded as the returned association list of `(path, content)` pairs, in
write order. `derive_python_config` lives in pyembed.rs, which is not among
the provided sources; it is passed in as the external capability producing
the configuration descriptor text from the config and the packed-resources
path. -/
def EmbeddedPythonContext.write_files
    (derive_python_config : EmbeddedPythonConfig → String → String)
    (ctx : EmbeddedPythonContext) (dest_dir : String) :
    List (String × FileData) × EmbeddedPythonPaths :=
  let module_names := path_join dest_dir "py-module-names"
  let embedded_resources := path_join dest_dir "packed-resources"
  let libpython := path_join dest_dir ctx.linking_info.libpythonxy_filename
  let libpyembeddedconfig_write :=
    match ctx.linking_info.libpyembeddedconfig_data with
    | some data =>
      some (path_join dest_dir (ctx.linking_info.libpyembeddedconfig_filename.getD ""),
        FileData.bytes data)
    | none => none
  let config_rs_data := derive_python_config ctx.config embedded_resources
  let config_rs := path_join dest_dir "default_python_config.rs"
  let cargo_metadata_lines :=
    ctx.linking_info.cargo_metadata
      ++ ["cargo:rustc-link-search=native=" ++ dest_dir]
      ++ ["cargo:default-python-config-rs=" ++ config_rs]
  let cargo_metadata := path_join dest_dir "cargo_metadata.txt"
  ([(module_names, FileData.bytes ctx.module_names),
    (embedded_resources, FileData.bytes ctx.resources),
    (libpython, FileData.bytes ctx.linking_info.libpythonxy_data)]
      ++ (match libpyembeddedconfig_write with
          | some w => [w]
          | none => [])
      ++ [(config_rs, FileData.text config_rs_data),
          (cargo_metadata, FileData.text (joinSep "\n" cargo_metadata_lines))],
   { module_names := module_names
     embedded_resources := embedded_resources
     libpython := libpython
     libpyembeddedconfig := libpyembeddedconfig_write.map Prod.fst
     config_rs := config_rs
     cargo_metadata := cargo_metadata })

/-! ## Concrete inputs used by witnesses and counterexamples -/

/-- A concrete filesystem: an 18-byte bytecode cache file, a 10-byte one,
a generic 3-byte data file, and native-code blobs for an extension module. -/
def fsEx : FS := fun p =>
  if p = "bc18" then some (List.range 18)
  else if p = "bc10" then some (List.range 10)
  else if p = "file.bin" then some [1, 2, 3]
  else if p = "ext.so" then some [7]
  else if p = "ext.o" then some [8]
  else none

/-- The empty filesystem: every path is unreadable. -/
def fsNone : FS := fun _ => none

/-- A compiled-bytecode module backed by the 18-byte cache file. -/
def mBc18 : PythonModuleBytecode :=
  { name := "foo"
    bytecode := DataLocation.Path "bc18"
    optimize_level := .Zero
    is_package := false
    cache_tag := "cpython-37"
    is_stdlib := false
    is_test := false }

/-- A compiled-bytecode module backed by the 10-byte cache file. -/
def mBc10 : PythonModuleBytecode :=
  { mBc18 with bytecode := DataLocation.Path "bc10" }

/-- The default variant `A` of the extension module `ext` of the spec's
variant-selection example. -/
def emA : PythonExtensionModule :=
  { name := "ext"
    init_fn := none
    extension_file_suffix := ".so"
    shared_library := none
    object_file_data := []
    is_package := false
    link_libraries := []
    is_stdlib := false
    builtin_default := false
    required := false
    variant := some "default"
    licenses := none
    license_texts := none
    license_public_domain := none }

/-- The variant `B` with label `fast` of the spec's variant-selection
example. -/
def emB : PythonExtensionModule :=
  { emA with variant := some "fast" }

/-- The variant set `[A(default), B(label="fast")]`. -/
def sVar : PythonExtensionModuleVariants := ⟨[emA, emB]⟩

/-- The preference mapping sending the extension's name to `"fast"`. -/
def prefsFast : String → Option String := fun n =>
  if n = "ext" then some "fast" else none

/-- The preference mapping sending the extension's name to the absent label
`"missing"`. -/
def prefsMissing : String → Option String := fun n =>
  if n = "ext" then some "missing" else none

/-- An extension module whose shared library and whose single object-file
blob are both backed by on-disk paths. -/
def emBug : PythonExtensionModule :=
  { name := "extmod"
    init_fn := some "PyInit_extmod"
    extension_file_suffix := ".so"
    shared_library := some (DataLocation.Path "ext.so")
    object_file_data := [DataLocation.Path "ext.o"]
    is_package := false
    link_libraries := []
    is_stdlib := false
    builtin_default := false
    required := false
    variant := none
    licenses := none
    license_texts := none
    license_public_domain := none }

/-- A source module named `foo.bar` for the package-membership example. -/
def fooBar : PythonModuleSource :=
  { name := "foo.bar"
    source := DataLocation.Memory []
    is_package := false
    cache_tag := "cpython-37"
    is_stdlib := false
    is_test := false }

/-! ## Theorems -/

/-- The `extensions` list of a variant set built by repeated `push` is the
initial list extended by the pushed elements, in order. -/
theorem foldl_push_extensions (s : PythonExtensionModuleVariants)
    (ems : List PythonExtensionModule) :
    (List.foldl PythonExtensionModuleVariants.push s ems).extensions =
      s.extensions ++ ems := by
  induction ems generalizing s with
  | nil => simp
  | cons em rest ih =>
    simp [List.foldl_cons, ih, PythonExtensionModuleVariants.push]

/-- C2: `default_variant()` on a variant set built by pushing the elements of
`ems` (in order) onto the empty set returns the first-pushed element, and
fails with `EmptyVariantSet` when no variant was ever pushed. -/
theorem c2_default_variant_first_pushed (ems : List PythonExtensionModule) :
    (List.foldl PythonExtensionModuleVariants.push
        PythonExtensionModuleVariants.empty ems).default_variant =
      match ems with
      | [] => .error .EmptyVariantSet
      | em :: _ => .ok em := by
  cases ems with
  | nil => rfl
  | cons em rest =>
    have h := foldl_push_extensions PythonExtensionModuleVariants.empty (em :: rest)
    rw [show PythonExtensionModuleVariants.empty.extensions = [] from rfl,
      List.nil_append] at h
    simp only [PythonExtensionModuleVariants.default_variant, h]

/-- C4: for a `PythonModuleBytecode` backed by an on-disk path whose file is
readable with contents `data`, `resolve_bytecode` strips a fixed 16-byte
header: when `data` has at least 16 bytes the result is exactly the trailing
`data.length - 16` bytes (the suffix remaining after the 16-byte prefix),
and when `data` has fewer than 16 bytes it fails with `BytecodeTooShort`. -/
theorem c4_resolve_bytecode_strips_header (fs : FS) (m : PythonModuleBytecode)
    (path : String) (data : List Nat)
    (hb : m.bytecode = DataLocation.Path path) (hfs : fs path = some data) :
    (data.length ≥ 16 →
      m.resolve_bytecode fs = .ok (data.drop 16) ∧
      (data.drop 16).length = data.length - 16 ∧
      data.take 16 ++ data.drop 16 = data) ∧
    (data.length < 16 → m.resolve_bytecode fs = .error .BytecodeTooShort) := by
  constructor
  · intro hlen
    refine ⟨?_, by simp, by simp⟩
    simp [PythonModuleBytecode.resolve_bytecode, hb, hfs, hlen]
  · intro hlen
    simp [PythonModuleBytecode.resolve_bytecode, hb, hfs, Nat.not_le.mpr hlen,
      Nat.not_le_of_lt hlen]

/-- Witness for C4: the 18-byte on-disk cache file resolves to exactly its
last 2 bytes, and the 10-byte one fails with `BytecodeTooShort`. -/
theorem c4_resolve_bytecode_strips_header_witness :
    mBc18.resolve_bytecode fsEx = .ok [16, 17] ∧
    mBc10.resolve_bytecode fsEx = .error .BytecodeTooShort := by
  constructor
  · have h := (c4_resolve_bytecode_strips_header fsEx mBc18 "bc18" (List.range 18)
      rfl (by decide)).1 (by decide)
    simpa using h.1
  · exact (c4_resolve_bytecode_strips_header fsEx mBc10 "bc10" (List.range 10)
      rfl (by decide)).2 (by decide)

/-- C7: egg-archive and path-extension resources have an empty full name and
are in no package, whatever the requested package list. -/
theorem c7_egg_path_extension_nameless (e : PythonEggFile) (p : PythonPathExtension)
    (pkgs : List String) :
    PythonResource.full_name (.EggFile e) = "" ∧
    PythonResource.full_name (.PathExtension p) = "" ∧
    PythonResource.is_in_packages (.EggFile e) pkgs = false ∧
    PythonResource.is_in_packages (.PathExtension p) pkgs = false := by
  exact ⟨rfl, rfl, rfl, rfl⟩

/-- C8: `DataLocation.to_memory` never fails on a `Memory`-variant input and
returns it unchanged; and whenever it succeeds the result is a `Memory`
location holding exactly the bytes the original resolves to (so the copy
resolves to the same bytes), and promoting the result again is the identity. -/
theorem c8_to_memory_copy_idempotent (fs : FS) :
    (∀ d, DataLocation.to_memory fs (.Memory d) = .ok (.Memory d)) ∧
    (∀ loc loc', DataLocation.to_memory fs loc = .ok loc' →
      ∃ d, loc' = DataLocation.Memory d ∧
        DataLocation.resolve fs loc = .ok d ∧
        DataLocation.resolve fs loc' = .ok d ∧
        DataLocation.to_memory fs loc' = .ok loc') := by
  constructor
  · intro d
    rfl
  · intro loc loc' h
    cases hr : loc.resolve fs with
    | error e =>
      rw [DataLocation.to_memory, hr] at h
      simp [Except.map] at h
    | ok d =>
      rw [DataLocation.to_memory, hr] at h
      have h2 : DataLocation.Memory d = loc' := by simpa [Except.map] using h
      subst h2
      exact ⟨d, rfl, rfl, rfl, rfl⟩

/-- Witness for C8: promoting the path-backed location `file.bin` under the
concrete filesystem yields the in-memory copy of its 3 bytes, which resolves
to the same bytes and is a fixed point of promotion. -/
theorem c8_to_memory_copy_idempotent_witness :
    ∃ d, (DataLocation.Memory [1, 2, 3] : DataLocation) = DataLocation.Memory d ∧
      DataLocation.resolve fsEx (DataLocation.Path "file.bin") = .ok d ∧
      DataLocation.resolve fsEx (DataLocation.Memory [1, 2, 3]) = .ok d ∧
      DataLocation.to_memory fsEx (DataLocation.Memory [1, 2, 3]) =
        .ok (DataLocation.Memory [1, 2, 3]) :=
  (c8_to_memory_copy_idempotent fsEx).2 (DataLocation.Path "file.bin")
    (DataLocation.Memory [1, 2, 3]) (by rfl)

/-- C10: for a `PythonModuleBytecode` whose bytecode is stored in memory —
as produced by `new` or `set_bytecode`, or any instance whose location is the
`Memory` variant — `resolve_bytecode` returns the stored bytes unchanged and
never fails, with no header stripping and no minimum-length check, for every
buffer including ones shorter than 16 bytes. -/
theorem c10_resolve_bytecode_memory_unchanged (fs : FS) (name cache_tag : String)
    (lvl : BytecodeOptimizationLevel) (is_package : Bool)
    (m : PythonModuleBytecode) (data : List Nat) :
    (PythonModuleBytecode.new name lvl is_package cache_tag data).resolve_bytecode fs =
      .ok data ∧
    (m.set_bytecode data).resolve_bytecode fs = .ok data ∧
    (m.bytecode = DataLocation.Memory data → m.resolve_bytecode fs = .ok data) := by
  refine ⟨rfl, rfl, ?_⟩
  intro h
  simp [PythonModuleBytecode.resolve_bytecode, h]

/-- Witness for C10: a 2-byte in-memory buffer (shorter than the 16-byte
header) is returned unchanged by `resolve_bytecode`, through `new`, through
`set_bytecode`, and directly. -/
theorem c10_resolve_bytecode_memory_unchanged_witness :
    (PythonModuleBytecode.new "foo" .Zero false "cpython-37" [1, 2]).resolve_bytecode
        fsEx = .ok [1, 2] ∧
    (mBc18.set_bytecode [1, 2]).resolve_bytecode fsEx = .ok [1, 2] ∧
    (PythonModuleBytecode.new "foo" .Zero false "cpython-37" [1, 2]).resolve_bytecode
        fsNone = .ok [1, 2] := by
  refine ⟨(c10_resolve_bytecode_memory_unchanged fsEx "foo" "cpython-37" .Zero false
    mBc18 [1, 2]).1, (c10_resolve_bytecode_memory_unchanged fsEx "foo" "cpython-37"
    .Zero false mBc18 [1, 2]).2.1, ?_⟩
  exact (c10_resolve_bytecode_memory_unchanged fsNone "foo" "cpython-37" .Zero false
    (PythonModuleBytecode.new "foo" .Zero false "cpython-37" [1, 2]) [1, 2]).2.2 rfl

/-- Reduction of `choose_variant` on a set whose first element is `d`. -/
theorem choose_variant_eq (s : PythonExtensionModuleVariants)
    (prefs : String → Option String) (d : PythonExtensionModule)
    (rest : List PythonExtensionModule) (h : s.extensions = d :: rest) :
    s.choose_variant prefs =
      match prefs d.name with
      | none => .ok d
      | some preferred =>
        match s.extensions.find? (fun em => em.variant == some preferred) with
        | some em => .ok em
        | none => .ok d := by
  have hd : s.default_variant = .ok d := by
    simp only [PythonExtensionModuleVariants.default_variant, h]
  simp only [PythonExtensionModuleVariants.choose_variant, hd]

/-- C3: on a non-empty variant set whose first-pushed (default) element is
`d`, `choose_variant` returns `d` when the preference mapping does not name
this extension; returns `d` when it names it but no variant in the set
carries the requested label (silent fallback); and returns the first variant
in insertion order carrying the requested label when one exists. -/
theorem c3_choose_variant_preference (s : PythonExtensionModuleVariants)
    (prefs : String → Option String) (d : PythonExtensionModule)
    (rest : List PythonExtensionModule) (h : s.extensions = d :: rest) :
    (prefs d.name = none → s.choose_variant prefs = .ok d) ∧
    (∀ lbl, prefs d.name = some lbl →
      (∀ x ∈ s.extensions, x.variant ≠ some lbl) →
      s.choose_variant prefs = .ok d) ∧
    (∀ lbl front em back, prefs d.name = some lbl →
      s.extensions = front ++ em :: back → em.variant = some lbl →
      (∀ x ∈ front, x.variant ≠ some lbl) →
      s.choose_variant prefs = .ok em) := by
  refine ⟨?_, ?_, ?_⟩
  · intro hn
    rw [choose_variant_eq s prefs d rest h, hn]
  · intro lbl hl hnone
    have hfind : s.extensions.find? (fun em => em.variant == some lbl) = none :=
      List.find?_eq_none.mpr (fun x hx => by simp [hnone x hx])
    rw [choose_variant_eq s prefs d rest h]
    simp only [hl, hfind]
  · intro lbl front em back hl hsplit hv hfront
    have h1 : front.find? (fun e => e.variant == some lbl) = none :=
      List.find?_eq_none.mpr (fun x hx => by simp [hfront x hx])
    have hfind : s.extensions.find? (fun e => e.variant == some lbl) = some em := by
      rw [hsplit, List.find?_append, h1, List.find?_cons_of_pos _ (by simp [hv])]
      rfl
    rw [choose_variant_eq s prefs d rest h]
    simp only [hl, hfind]

/-- Witness for C3: on the set `[A(default), B(label="fast")]`, the
preference mapping `ext → "fast"` selects `B`, and the mapping
`ext → "missing"` silently falls back to the default `A`. -/
theorem c3_choose_variant_preference_witness :
    sVar.choose_variant prefsFast = .ok emB ∧
    sVar.choose_variant prefsMissing = .ok emA := by
  constructor
  · exact (c3_choose_variant_preference sVar prefsFast emA [emB] rfl).2.2
      "fast" [emA] emB [] (by decide) rfl rfl (by decide)
  · exact (c3_choose_variant_preference sVar prefsMissing emA [emB] rfl).2.1
      "missing" (by decide) (by decide)

/-- Package-membership matching on a plain name: the per-package test of
`is_in_packages` passes for some requested package iff one of them equals
the name or is one of its dotted-prefix packages. -/
theorem any_package_match_iff (name : String) (pkgs : List String) :
    (pkgs.any (fun package =>
        name == package || (packages_from_module_name name).contains package)) = true ↔
      ∃ p ∈ pkgs, p = name ∨ p ∈ packages_from_module_name name := by
  rw [List.any_eq_true]
  constructor
  · rintro ⟨x, hx, hpx⟩
    rw [Bool.or_eq_true] at hpx
    refine ⟨x, hx, ?_⟩
    rcases hpx with h1 | h2
    · exact Or.inl (eq_of_beq h1).symm
    · exact Or.inr (List.elem_iff.mp h2)
  · rintro ⟨p, hp, hcase⟩
    refine ⟨p, hp, ?_⟩
    rw [Bool.or_eq_true]
    rcases hcase with h1 | h2
    · subst h1
      exact Or.inl (beq_self_eq_true p)
    · exact Or.inr (List.elem_iff.mpr h2)

/-- C5: for every resource kind carrying a dotted name (source module,
bytecode request, compiled bytecode, package resource via its leaf package,
distribution resource via its package, and both extension-module forms),
`is_in_packages` returns true iff some requested package equals that name
exactly or is one of its dotted-prefix packages; and the module `foo.bar` is
in-package for `["foo"]` and `["foo.bar"]` but not for `[]` or `["baz"]`. -/
theorem c5_is_in_packages_iff (pkgs : List String) (ms : PythonModuleSource)
    (mr : PythonModuleBytecodeFromSource) (mb : PythonModuleBytecode)
    (pr : PythonPackageResource) (dr : PythonPackageDistributionResource)
    (em : PythonExtensionModule) :
    (PythonResource.is_in_packages (.ModuleSource ms) pkgs = true ↔
      ∃ p ∈ pkgs, p = ms.name ∨ p ∈ packages_from_module_name ms.name) ∧
    (PythonResource.is_in_packages (.ModuleBytecodeRequest mr) pkgs = true ↔
      ∃ p ∈ pkgs, p = mr.name ∨ p ∈ packages_from_module_name mr.name) ∧
    (PythonResource.is_in_packages (.ModuleBytecode mb) pkgs = true ↔
      ∃ p ∈ pkgs, p = mb.name ∨ p ∈ packages_from_module_name mb.name) ∧
    (PythonResource.is_in_packages (.Resource pr) pkgs = true ↔
      ∃ p ∈ pkgs, p = pr.leaf_package ∨ p ∈ packages_from_module_name pr.leaf_package) ∧
    (PythonResource.is_in_packages (.DistributionResource dr) pkgs = true ↔
      ∃ p ∈ pkgs, p = dr.package ∨ p ∈ packages_from_module_name dr.package) ∧
    (PythonResource.is_in_packages (.ExtensionModuleDynamicLibrary em) pkgs = true ↔
      ∃ p ∈ pkgs, p = em.name ∨ p ∈ packages_from_module_name em.name) ∧
    (PythonResource.is_in_packages (.ExtensionModuleStaticallyLinked em) pkgs = true ↔
      ∃ p ∈ pkgs, p = em.name ∨ p ∈ packages_from_module_name em.name) ∧
    PythonResource.is_in_packages (.ModuleSource fooBar) ["foo"] = true ∧
    PythonResource.is_in_packages (.ModuleSource fooBar) ["foo.bar"] = true ∧
    PythonResource.is_in_packages (.ModuleSource fooBar) [] = false ∧
    PythonResource.is_in_packages (.ModuleSource fooBar) ["baz"] = false := by
  refine ⟨any_package_match_iff ms.name pkgs, any_package_match_iff mr.name pkgs,
    any_package_match_iff mb.name pkgs, any_package_match_iff pr.leaf_package pkgs,
    any_package_match_iff dr.package pkgs, any_package_match_iff em.name pkgs,
    any_package_match_iff em.name pkgs, by decide, by decide, by decide, by decide⟩

/-- The last element of a list of the shape `a :: (l ++ [b])` is `b`. -/
theorem getLast?_cons_concat {α : Type} (a b : α) (l : List α) :
    (a :: (l ++ [b])).getLast? = some b := by
  rw [← List.cons_append, List.getLast?_concat]

/-- The final component of a bytecode module path produced by
`resolve_path_for_module`: the base name, then the bytecode tag, then the
trailing `.pyc` extension. -/
theorem resolve_path_getLast? (pfx name : String) (is_package : Bool) (tag : String) :
    (resolve_path_for_module pfx name is_package (some tag)).getLast? =
      some ((if is_package then "__init__" else (split_dots name).getLastD "") ++
        ("." ++ tag ++ ".pyc")) := by
  simp only [resolve_path_for_module]
  rw [getLast?_cons_concat]
  simp [String.append_assoc]

/-- C6: for both bytecode resource kinds, `resolve_path` delegates to the
module path-resolution convention with a bytecode tag equal to the cache tag
followed by the optimization-level suffix — empty for level 0, `.opt-1` for
level 1, `.opt-2` for level 2 — and the resulting path's final component
carries that tag between the base name and the trailing `.pyc` extension. -/
theorem c6_bytecode_path_opt_suffix (mf : PythonModuleBytecodeFromSource)
    (m : PythonModuleBytecode) (pfx : String) :
    mf.resolve_path pfx = resolve_path_for_module pfx mf.name mf.is_package
      (some (mf.cache_tag ++ mf.optimize_level.to_extra_tag)) ∧
    m.resolve_path pfx = resolve_path_for_module pfx m.name m.is_package
      (some (m.cache_tag ++ m.optimize_level.to_extra_tag)) ∧
    BytecodeOptimizationLevel.to_extra_tag .Zero = "" ∧
    BytecodeOptimizationLevel.to_extra_tag .One = ".opt-1" ∧
    BytecodeOptimizationLevel.to_extra_tag .Two = ".opt-2" ∧
    (m.resolve_path pfx).getLast? = some
      ((if m.is_package then "__init__" else (split_dots m.name).getLastD "") ++
        ("." ++ (m.cache_tag ++ m.optimize_level.to_extra_tag) ++ ".pyc")) := by
  refine ⟨?_, ?_, rfl, rfl, rfl, ?_⟩
  · cases hl : mf.optimize_level <;>
      simp [PythonModuleBytecodeFromSource.resolve_path, hl,
        BytecodeOptimizationLevel.to_extra_tag]
  · cases hl : m.optimize_level <;>
      simp [PythonModuleBytecode.resolve_path, hl,
        BytecodeOptimizationLevel.to_extra_tag]
  · cases hl : m.optimize_level <;>
      simp [PythonModuleBytecode.resolve_path, hl, resolve_path_getLast?,
        BytecodeOptimizationLevel.to_extra_tag, String.append_assoc,
        String.append_empty]

/-- C1: evaluation of `PythonResource::to_memory` at an extension module
whose object-file blob is path-backed. The promotion succeeds, yet the copy
still holds the filesystem-backed `Path` location in `object_file_data`
(`to_memory` clones that field instead of promoting it), so its content is
unresolvable once the on-disk backing is gone — contrary to the claim and to
the function's own documentation ("guaranteed to be backed by memory"). -/
theorem c1_extension_object_files_stay_on_disk :
    ∃ em2, PythonResource.to_memory fsEx
        (.ExtensionModuleDynamicLibrary emBug) =
          .ok (.ExtensionModuleDynamicLibrary em2) ∧
      em2.object_file_data = [DataLocation.Path "ext.o"] ∧
      em2.object_file_data.all DataLocation.is_memory = false ∧
      em2.object_file_data.map (DataLocation.resolve fsNone) =
        [.error (.IoError "ext.o")] := by
  refine ⟨{ emBug with shared_library := some (DataLocation.Memory [7]) },
    ?_, rfl, rfl, rfl⟩
  rfl

/-- C9: the build-linkage directives file written by `write_files` holds, in
order, the upstream `linking_info.cargo_metadata` lines, then the
search-path directive naming the destination directory, then the
configuration-path directive naming the generated configuration descriptor,
joined one directive per line; and the returned paths locate the descriptor
and the directives file inside the destination directory. -/
theorem c9_write_files_cargo_metadata_lines
    (dpc : EmbeddedPythonConfig → String → String)
    (ctx : EmbeddedPythonContext) (dest_dir : String) :
    (ctx.write_files dpc dest_dir).1.getLast? = some
      (path_join dest_dir "cargo_metadata.txt",
        FileData.text (joinSep "\n"
          (ctx.linking_info.cargo_metadata
            ++ ["cargo:rustc-link-search=native=" ++ dest_dir]
            ++ ["cargo:default-python-config-rs=" ++
                  (ctx.write_files dpc dest_dir).2.config_rs]))) ∧
    (ctx.write_files dpc dest_dir).2.config_rs =
      path_join dest_dir "default_python_config.rs" ∧
    (ctx.write_files dpc dest_dir).2.cargo_metadata =
      path_join dest_dir "cargo_metadata.txt" := by
  refine ⟨?_, rfl, rfl⟩
  cases h : ctx.linking_info.libpyembeddedconfig_data <;>
    simp [EmbeddedPythonContext.write_files, h, List.getLast?_append,
      List.getLast?_cons_cons]

end PyOx
